import Mathlib

/-!
Verification of `ensure-update` (src/main.rs): a tool that conditionally
runs `git pull` in a repository directory, keyed on a persisted table of
last-update timestamps.

Shallow embedding conventions:
* `jiff::Timestamp` and `jiff::SignedDuration` are modelled as unbounded
  integers counting nanoseconds (jiff stores 64-bit seconds plus 32-bit
  nanoseconds; no arithmetic in this program can overflow that range, since
  `max_age` is an `i32` widened to `i64` before `from_hours`).
* The ambient clock readings taken by `Timestamp::now()` are passed in
  explicitly (`now`); the source takes two readings in a full run, one
  inside `is_recent` and one at the table insert.
* `HashMap<String, Timestamp>` is modelled as an association list with
  unique-key insert semantics.
* Filesystem facts (`Path::is_dir`) and the outcomes of the I/O calls made
  by `run` (state load/store, `set_current_dir`, spawning the subprocess)
  are supplied by an environment record `Env`; `run` returns its
  `io::Result` value together with the ordered trace of external effects
  it performed.
-/

namespace EnsureUpdate

/-- `jiff::Timestamp`: an absolute instant, modelled as integer nanoseconds
since the epoch. -/
abbrev Timestamp := Int

/-- `jiff::SignedDuration`: a signed span of time, modelled as integer
nanoseconds. -/
abbrev SignedDuration := Int

/-- Nanoseconds in one hour. -/
def nanosPerHour : Int := 3600 * 1000000000

/-- `SignedDuration::from_hours`. -/
def SignedDuration.from_hours (h : Int) : SignedDuration := h * nanosPerHour

/-- `Timestamp::duration_until`: `t.duration_until(other) = other - t`. -/
def duration_until (t other : Timestamp) : SignedDuration := other - t

/-- The runtime table `HashMap<String, Timestamp>`, as an association list. -/
abbrev Table := List (String × Timestamp)

/-- `HashMap::get` (first matching key). -/
def Table.get (table : Table) (k : String) : Option Timestamp :=
  match table.find? (fun e => e.1 = k) with
  | none => none
  | some e => some e.2

/-- `HashMap::insert`: replace the value at `k`, or append a fresh entry. -/
def Table.insert (table : Table) (k : String) (v : Timestamp) : Table :=
  match table with
  | [] => [(k, v)]
  | e :: rest => if e.1 = k then (k, v) :: rest else e :: Table.insert rest k v

/-- `is_recent` from src/main.rs lines 90-99.  The source reads the ambient
clock (`Timestamp::now()`) between its arguments; the embedding passes that
reading as the explicit final argument `now`.  Returns `false` (not recent,
hence due) when the key is absent; otherwise compares
`SignedDuration::from_hours(max_age as i64) > elapsed.abs()`. -/
def is_recent (table : Table) (repository_name : String) (max_age : Int)
    (now : Timestamp) : Bool :=
  match table.get repository_name with
  | none => false
  | some timestamp =>
    let elapsed := |duration_until timestamp now|
    decide (SignedDuration.from_hours max_age > elapsed)

/-- The `io::Error` values this program produces or propagates: a kind
(`NotFound` for the two path failures; everything else is modelled as
`other`) together with the message that `eprintln!("{e}")` would display. -/
inductive IoErr where
  | notFound (msg : String)
  | other (msg : String)
deriving DecidableEq

/-- The displayed message of an error (what one `eprintln!` call prints). -/
def IoErr.message : IoErr → String
  | .notFound m => m
  | .other m => m

instance {ε : Type _} {α : Type _} [DecidableEq ε] [DecidableEq α] :
    DecidableEq (Except ε α) := fun a b =>
  match a, b with
  | Except.error e₁, Except.error e₂ =>
    if h : e₁ = e₂ then Decidable.isTrue (congrArg Except.error h)
    else Decidable.isFalse (fun hc => h (Except.error.inj hc))
  | Except.error _, Except.ok _ =>
    Decidable.isFalse (fun hc => Except.noConfusion hc)
  | Except.ok _, Except.error _ =>
    Decidable.isFalse (fun hc => Except.noConfusion hc)
  | Except.ok a₁, Except.ok a₂ =>
    if h : a₁ = a₂ then Decidable.isTrue (congrArg Except.ok h)
    else Decidable.isFalse (fun hc => h (Except.ok.inj hc))

/-- Split a character list at every slash (helper for `fileName`). -/
def splitSlash : List Char → List (List Char)
  | [] => [[]]
  | c :: rest =>
    if c = '/' then [] :: splitSlash rest
    else
      match splitSlash rest with
      | [] => [[c]]
      | p :: ps => (c :: p) :: ps

/-- Rust `Path::file_name` for a Unix-style path held in a `String`: the
last normal component of the path — empty pieces (repeated or trailing
separators, the root) and `.` pieces are skipped, and the result is `none`
when no component remains or the path ends in `..`. -/
def fileName (path : String) : Option String :=
  match ((splitSlash path.toList).filter
      (fun s => decide (s ≠ [] ∧ s ≠ ['.']))).getLast? with
  | none => none
  | some last => if last = ['.', '.'] then none else some (String.mk last)

/-- `OsStr::to_string_lossy` as applied in `get_name`.  The `OsStr` there is
a slice of `opts.repository`, a Rust `String`, hence guaranteed valid UTF-8;
per the documentation of `to_string_lossy`, on valid UTF-8 the conversion is
lossless and returns the text unchanged (no replacement character is ever
substituted), so on this program's inputs the conversion is the identity. -/
def toStringLossy (s : String) : String := s

/-- `get_name` from src/main.rs lines 107-126.  `Path::is_dir` consults the
filesystem, so it is passed in as an oracle `is_dir`; Rust's `is_dir`
returns `false` both for a path to a regular file and for a path that does
not exist, so those two rejections coincide in the model, as in the code. -/
def get_name (is_dir : String → Bool) (repository : String) :
    Except IoErr String :=
  if !(is_dir repository) then
    Except.error (IoErr.notFound "not a directory")
  else
    match fileName repository with
    | none => Except.error (IoErr.notFound "did you attempt to update root?")
    | some name => Except.ok (toStringLossy name)

/-- `build_update_command`: the program and argument list of the subprocess. -/
def build_update_command : String × List String := ("git", ["pull"])

/-- The CLI options (struct `Opts`).  `max_age: i32` is modelled as an
unbounded integer; the source widens it losslessly to `i64` before use. -/
structure Opts where
  repository : String
  max_age : Int
  force : Bool
  verbose : Bool

/-- The outcomes of the ambient world consulted by one execution of `run`:
the filesystem answer used by `get_name`, the results of the four fallible
I/O calls, and the two `Timestamp::now()` readings (taken inside
`is_recent` and at the table insert respectively). -/
structure Env where
  is_dir : String → Bool
  loadResult : Except IoErr Table
  setDirResult : Except IoErr Unit
  statusResult : Except IoErr Bool
  storeResult : Except IoErr Unit
  nowCheck : Timestamp
  nowStore : Timestamp

/-- The externally visible operations `run` can perform, in program order:
`std::env::set_current_dir`, spawning the update command (with stdout
redirected to null unless verbose), and `provider.store` of a table.  The
source contains no operation that restores the working directory, so no
such constructor exists. -/
inductive Effect where
  | setCurrentDir (path : String)
  | runCommand (program : String) (args : List String) (stdoutNull : Bool)
  | storeTable (table : Table)
deriving DecidableEq

/-- `run` from src/main.rs lines 37-88, returning its `io::Result` together
with the ordered trace of external effects performed: resolve the name,
load the table, return early when recent and not forced; otherwise change
directory, run `git pull` (stdout nulled unless verbose), fail without
storing when the command fails, else insert the fresh timestamp and store
the table. -/
def run (env : Env) (opts : Opts) : Except IoErr Unit × List Effect :=
  match get_name env.is_dir opts.repository with
  | Except.error e => (Except.error e, [])
  | Except.ok repository_name =>
    match env.loadResult with
    | Except.error e => (Except.error e, [])
    | Except.ok table =>
      if is_recent table repository_name opts.max_age env.nowCheck
          && !opts.force then
        (Except.ok (), [])
      else
        match env.setDirResult with
        | Except.error e =>
          (Except.error e, [Effect.setCurrentDir opts.repository])
        | Except.ok _ =>
          match env.statusResult with
          | Except.error e =>
            (Except.error e,
             [Effect.setCurrentDir opts.repository,
              Effect.runCommand build_update_command.1 build_update_command.2
                (!opts.verbose)])
          | Except.ok success =>
            if !success then
              (Except.error (IoErr.other "repository failed to update"),
               [Effect.setCurrentDir opts.repository,
                Effect.runCommand build_update_command.1 build_update_command.2
                  (!opts.verbose)])
            else
              match env.storeResult with
              | Except.error e =>
                (Except.error e,
                 [Effect.setCurrentDir opts.repository,
                  Effect.runCommand build_update_command.1
                    build_update_command.2 (!opts.verbose),
                  Effect.storeTable
                    (table.insert repository_name env.nowStore)])
              | Except.ok _ =>
                (Except.ok (),
                 [Effect.setCurrentDir opts.repository,
                  Effect.runCommand build_update_command.1
                    build_update_command.2 (!opts.verbose),
                  Effect.storeTable
                    (table.insert repository_name env.nowStore)])

/-- `main` from src/main.rs lines 30-35: the process exit code together
with the list of lines printed to standard error (`eprintln!` prints its
argument as one line).  On `Ok` the process falls off the end of `main`
(exit code 0, nothing printed); on `Err(e)` it prints the error display on
one line and calls `process::exit(1)`. -/
def mainModel (env : Env) (opts : Opts) : Nat × List String :=
  match (run env opts).1 with
  | Except.ok _ => (0, [])
  | Except.error e => (1, [e.message])

/-- A fully cooperative environment for concrete executions: every path is
a directory, load yields `table`, directory change and store succeed, the
subprocess exits with `success`, and both clock readings are 0. -/
def envOk (table : Table) (success : Bool) : Env :=
  { is_dir := fun _ => true
    loadResult := Except.ok table
    setDirResult := Except.ok ()
    statusResult := Except.ok success
    storeResult := Except.ok ()
    nowCheck := 0
    nowStore := 0 }

/-- Concrete options with the default `max_age` of 8 hours. -/
def optsEx (repo : String) (force verbose : Bool) : Opts :=
  { repository := repo, max_age := 8, force := force, verbose := verbose }

end EnsureUpdate

namespace EnsureUpdate

/-- C1: for a table containing key `K` with stored timestamp `T` and current
time `C`, the check reports the repository due (`is_recent = false`) exactly
when `|C - T| ≥ max_age` hours; the absolute value makes the condition
symmetric in `T` and `C` (clock skew is absorbed, never an error: the check
is a total boolean). -/
theorem is_due_iff_elapsed_ge (table : Table) (K : String) (T : Timestamp)
    (C : Timestamp) (max_age : Int) (h : table.get K = some T) :
    (is_recent table K max_age C = false ↔
      |C - T| ≥ SignedDuration.from_hours max_age) := by
  simp [is_recent, h, duration_until, not_lt]

/-- Witness for C1 at a concrete input: `max_age = 8` hours, stored
timestamp 0, current time exactly eight hours later — due on equality; the
same threshold is also checked with the stored timestamp eight hours in the
FUTURE of the current time (clock skew), again due. -/
theorem is_due_iff_elapsed_ge_witness :
    (is_recent [("foo", (0 : Int))] "foo" 8 (SignedDuration.from_hours 8) = false ↔
      |SignedDuration.from_hours 8 - 0| ≥ SignedDuration.from_hours 8) ∧
    (is_recent [("foo", SignedDuration.from_hours 8)] "foo" 8 0 = false ↔
      |(0 : Int) - SignedDuration.from_hours 8| ≥ SignedDuration.from_hours 8) :=
  ⟨is_due_iff_elapsed_ge _ "foo" 0 _ 8 (by decide),
   is_due_iff_elapsed_ge _ "foo" (SignedDuration.from_hours 8) 0 8 (by decide)⟩

/-- C2: a table with no entry for the repository name reports it due
(`is_recent` returns `false`) for every `max_age` and clock reading. -/
theorem no_entry_is_due (table : Table) (K : String) (max_age : Int)
    (now : Timestamp) (h : table.get K = none) :
    is_recent table K max_age now = false := by
  simp [is_recent, h]

/-- Witness for C2: the empty table, and a non-empty table whose keys avoid
the queried one. -/
theorem no_entry_is_due_witness :
    is_recent [] "foo" 8 0 = false ∧
    is_recent [("bar", (17 : Int))] "foo" 999 5 = false :=
  ⟨no_entry_is_due [] "foo" 8 0 (by decide),
   no_entry_is_due [("bar", 17)] "foo" 999 5 (by decide)⟩

/-- C10: any `max_age ≤ 0` (the argument is a signed integer; negative values
are accepted) reports every repository due, as `from_hours` of a nonpositive
count can never strictly exceed a nonnegative absolute elapsed duration. -/
theorem nonpositive_age_always_due (table : Table) (K : String) (max_age : Int)
    (now : Timestamp) (h : max_age ≤ 0) :
    is_recent table K max_age now = false := by
  unfold is_recent
  cases hg : table.get K with
  | none => rfl
  | some t =>
    simp only [decide_eq_false_iff_not, not_lt]
    have h1 : SignedDuration.from_hours max_age ≤ 0 := by
      have : (0 : Int) < nanosPerHour := by decide
      simpa [SignedDuration.from_hours] using
        mul_nonpos_of_nonpos_of_nonneg h (le_of_lt this)
    exact le_trans h1 (abs_nonneg _)

/-- Witness for C10: `max_age = 0` with the stored timestamp equal to the
current time is still due, and a negative `max_age = -3` is likewise due. -/
theorem nonpositive_age_always_due_witness :
    is_recent [("foo", (42 : Int))] "foo" 0 42 = false ∧
    is_recent [("foo", (42 : Int))] "foo" (-3) 42 = false :=
  ⟨nonpositive_age_always_due [("foo", 42)] "foo" 0 42 (by decide),
   nonpositive_age_always_due [("foo", 42)] "foo" (-3) 42 (by decide)⟩

/-- C5: `get_name` fails with `NotFound` when `is_dir` is false (which Rust
reports both for a regular file and for a non-existent path), fails with
`NotFound` when the path has no final segment (root-like paths), and on an
existing directory with final segment `s` succeeds with `toStringLossy s`
(the identity here, the input being valid UTF-8: lossless conversion). -/
theorem get_name_cases (is_dir : String → Bool) (p : String) :
    (is_dir p = false →
      get_name is_dir p = Except.error (IoErr.notFound "not a directory")) ∧
    (is_dir p = true → fileName p = none →
      get_name is_dir p =
        Except.error (IoErr.notFound "did you attempt to update root?")) ∧
    (∀ s, is_dir p = true → fileName p = some s →
      get_name is_dir p = Except.ok (toStringLossy s)) := by
  refine ⟨fun h => ?_, fun h h2 => ?_, fun s h h2 => ?_⟩
  · simp [get_name, h]
  · simp [get_name, h, h2]
  · simp [get_name, h, h2]

/-- Witness for C5: a rejected non-directory path, the root path `/` (no
final segment), and a directory path `/home/user/repo/` whose final segment
`repo` is returned despite the trailing separator. -/
theorem get_name_cases_witness :
    get_name (fun _ => false) "/home/user/file.txt" =
      Except.error (IoErr.notFound "not a directory") ∧
    get_name (fun _ => true) "/" =
      Except.error (IoErr.notFound "did you attempt to update root?") ∧
    get_name (fun _ => true) "/home/user/repo/" = Except.ok "repo" :=
  ⟨(get_name_cases (fun _ => false) "/home/user/file.txt").1 rfl,
   (get_name_cases (fun _ => true) "/").2.1 rfl (by decide),
   (get_name_cases (fun _ => true) "/home/user/repo/").2.2 "repo" rfl (by decide)⟩

/-- C9 counterexample: `is_recent` consults the ambient clock
(`Timestamp::now()`) in addition to its three arguments, so two invocations
with equal in-memory inputs (table `[("foo", 0)]`, key `"foo"`, max age 1)
return different results when the clock has advanced by two hours between
them. -/
theorem is_recent_reads_ambient_clock :
    is_recent [("foo", (0 : Int))] "foo" 1 0 = true ∧
    is_recent [("foo", (0 : Int))] "foo" 1 (SignedDuration.from_hours 2) =
      false := by
  decide

/-- C9 amended: the check cannot fail (it is a total boolean function) and
is deterministic in its arguments TOGETHER WITH the current clock reading;
beyond the clock it consults nothing but the entry stored under the key —
tables agreeing on the looked-up entry give equal results. -/
theorem is_recent_pure_given_clock (t₁ t₂ : Table) (k₁ k₂ : String)
    (max_age : Int) (now : Timestamp) (h : t₁.get k₁ = t₂.get k₂) :
    is_recent t₁ k₁ max_age now = is_recent t₂ k₂ max_age now := by
  unfold is_recent
  rw [h]

/-- Witness for C9's amended theorem: a two-entry table and its restriction
to the looked-up key agree. -/
theorem is_recent_pure_given_clock_witness :
    is_recent [("a", (5 : Int)), ("b", 9)] "b" 8 9 =
      is_recent [("b", (9 : Int))] "b" 8 9 :=
  is_recent_pure_given_clock [("a", 5), ("b", 9)] [("b", 9)] "b" "b" 8 9
    (by decide)

/-- Helper: complete case analysis of a `run` execution.  The effect trace
is one of four prefixes of (change directory, run command, store table);
when the trace ends at the command and the subprocess reported failure the
result is the update-failure error, and the trace reaches the store only
when the subprocess reported success. -/
theorem run_shape (env : Env) (opts : Opts) :
    (run env opts).2 = [] ∨
    (run env opts).2 = [Effect.setCurrentDir opts.repository] ∨
    ((run env opts).2 = [Effect.setCurrentDir opts.repository,
        Effect.runCommand "git" ["pull"] (!opts.verbose)] ∧
      (env.statusResult = Except.ok false →
        (run env opts).1 =
          Except.error (IoErr.other "repository failed to update"))) ∨
    (∃ t, (run env opts).2 = [Effect.setCurrentDir opts.repository,
        Effect.runCommand "git" ["pull"] (!opts.verbose),
        Effect.storeTable t] ∧
      env.statusResult = Except.ok true) := by
  cases hg : get_name env.is_dir opts.repository with
  | error e => simp [run, hg]
  | ok repository_name =>
    cases hl : env.loadResult with
    | error e => simp [run, hg, hl]
    | ok table =>
      cases hskip :
          is_recent table repository_name opts.max_age env.nowCheck
            && !opts.force with
      | true => simp [run, hg, hl, hskip]
      | false =>
        cases hd : env.setDirResult with
        | error e => simp [run, hg, hl, hskip, hd]
        | ok u =>
          cases hs : env.statusResult with
          | error e =>
            simp [run, hg, hl, hskip, hd, hs, build_update_command]
          | ok success =>
            cases success with
            | false =>
              simp [run, hg, hl, hskip, hd, hs, build_update_command]
            | true =>
              cases hst : env.storeResult with
              | error e =>
                simp [run, hg, hl, hskip, hd, hs, hst, build_update_command]
              | ok u2 =>
                simp [run, hg, hl, hskip, hd, hs, hst, build_update_command]

/-- C3: with the force flag set the freshness check never causes a skip —
whenever name resolution and the state load succeed (for ANY table,
including one whose entry carries the current clock reading) and the
directory change goes through, the trace contains the update command
invocation. -/
theorem force_always_updates (env : Env) (opts : Opts) (n : String)
    (table : Table)
    (hname : get_name env.is_dir opts.repository = Except.ok n)
    (hload : env.loadResult = Except.ok table)
    (hdir : env.setDirResult = Except.ok ())
    (hforce : opts.force = true) :
    Effect.runCommand "git" ["pull"] (!opts.verbose) ∈ (run env opts).2 := by
  cases hs : env.statusResult with
  | error e =>
    simp [run, hname, hload, hdir, hforce, hs, build_update_command]
  | ok success =>
    cases hst : env.storeResult <;> cases success <;>
      simp [run, hname, hload, hdir, hforce, hs, hst, build_update_command]

/-- Witness for C3: a table whose entry for `"repo"` equals the current
clock reading (maximally recent), yet with `force` the command is run. -/
theorem force_always_updates_witness :
    Effect.runCommand "git" ["pull"] true ∈
      (run (envOk [("repo", (0 : Int))] true) (optsEx "repo" true false)).2 :=
  force_always_updates (envOk [("repo", 0)] true) (optsEx "repo" true false)
    "repo" [("repo", 0)] (by decide) rfl rfl rfl

/-- C4: when the update subprocess exits unsuccessfully, a run that invoked
it fails with the update-failure error, and no table is ever stored (the
persisted mapping stays exactly as it was). -/
theorem update_failure_no_store (env : Env) (opts : Opts)
    (hstatus : env.statusResult = Except.ok false) :
    ((∃ p a b, Effect.runCommand p a b ∈ (run env opts).2) →
      (run env opts).1 =
        Except.error (IoErr.other "repository failed to update")) ∧
    (∀ t, Effect.storeTable t ∉ (run env opts).2) := by
  rcases run_shape env opts with h | h | ⟨h, himp⟩ | ⟨t, h, hok⟩
  · exact ⟨fun ⟨p, a, b, hmem⟩ => by simp [h] at hmem,
      fun t => by simp [h]⟩
  · exact ⟨fun ⟨p, a, b, hmem⟩ => by simp [h] at hmem,
      fun t => by simp [h]⟩
  · exact ⟨fun _ => himp hstatus, fun t => by simp [h]⟩
  · rw [hstatus] at hok
    simp at hok

/-- Witness for C4: a run against an empty table whose subprocess fails:
the result is the update-failure error and no store effect occurs. -/
theorem update_failure_no_store_witness :
    ((∃ p a b, Effect.runCommand p a b ∈
        (run (envOk [] false) (optsEx "repo" false false)).2) →
      (run (envOk [] false) (optsEx "repo" false false)).1 =
        Except.error (IoErr.other "repository failed to update")) ∧
    (∀ t, Effect.storeTable t ∉
        (run (envOk [] false) (optsEx "repo" false false)).2) :=
  update_failure_no_store (envOk [] false) (optsEx "repo" false false) rfl

/-- C6: the modelled process exits with code 0 and prints nothing whenever
`run` returns `Ok` (which covers both a performed and a skipped update),
and on any error exits with code 1 after printing exactly one line — the
error's display — to standard error. -/
theorem exit_code_model (env : Env) (opts : Opts) :
    ((run env opts).1 = Except.ok () → mainModel env opts = (0, [])) ∧
    (∀ e, (run env opts).1 = Except.error e →
      mainModel env opts = (1, [e.message]) ∧
        (mainModel env opts).2.length = 1) := by
  constructor
  · intro h
    simp [mainModel, h]
  · intro e h
    simp [mainModel, h]

/-- Witness for C6: a skipped run (entry at the current clock reading, no
force) exits 0 with silent stderr; a failed update exits 1 printing the
single error line. -/
theorem exit_code_model_witness :
    mainModel (envOk [("repo", (0 : Int))] true) (optsEx "repo" false false) =
      (0, []) ∧
    mainModel (envOk [] false) (optsEx "repo" false false) =
      (1, ["repository failed to update"]) :=
  ⟨(exit_code_model (envOk [("repo", 0)] true)
      (optsEx "repo" false false)).1 (by decide),
   ((exit_code_model (envOk [] false) (optsEx "repo" false false)).2
      (IoErr.other "repository failed to update") (by decide)).1⟩

/-- C7: a skipped run — the repository is recent and force is unset — does
nothing after the freshness check: `run` returns `Ok` with an EMPTY effect
trace, so the directory is untouched, no subprocess is invoked, and the
mapping is neither mutated nor stored. -/
theorem skip_run_no_effects (env : Env) (opts : Opts) (n : String)
    (table : Table)
    (hname : get_name env.is_dir opts.repository = Except.ok n)
    (hload : env.loadResult = Except.ok table)
    (hrecent : is_recent table n opts.max_age env.nowCheck = true)
    (hforce : opts.force = false) :
    run env opts = (Except.ok (), []) := by
  simp [run, hname, hload, hrecent, hforce]

/-- Witness for C7: entry stored at the current clock reading, default
max age, no force: the run is a no-op success. -/
theorem skip_run_no_effects_witness :
    run (envOk [("repo", (0 : Int))] true) (optsEx "repo" false false) =
      (Except.ok (), []) :=
  skip_run_no_effects (envOk [("repo", 0)] true) (optsEx "repo" false false)
    "repo" [("repo", 0)] (by decide) rfl (by decide) rfl

/-- C8 counterexample: on a successful update run the state store write
DOES execute while the process is still in the changed directory — the
trace performs `set_current_dir`, then the command, then the store, and
contains no operation restoring the directory (the source has none). -/
theorem store_write_in_changed_dir :
    run (envOk [] true) (optsEx "repo" false false) =
      (Except.ok (),
       [Effect.setCurrentDir "repo",
        Effect.runCommand "git" ["pull"] true,
        Effect.storeTable [("repo", 0)]]) := by
  decide

/-- C8 amended: after the working-directory change the only further
operations are the update command invocation and, on subprocess success,
the state store write — which therefore runs in the changed-directory
context; the directory is never restored, the process simply terminates
after the store.  Every trace of `run` is a prefix of that sequence. -/
theorem changed_dir_operations (env : Env) (opts : Opts) :
    (run env opts).2 = [] ∨
    (run env opts).2 = [Effect.setCurrentDir opts.repository] ∨
    (run env opts).2 = [Effect.setCurrentDir opts.repository,
      Effect.runCommand "git" ["pull"] (!opts.verbose)] ∨
    (∃ t, (run env opts).2 = [Effect.setCurrentDir opts.repository,
      Effect.runCommand "git" ["pull"] (!opts.verbose),
      Effect.storeTable t]) := by
  rcases run_shape env opts with h | h | ⟨h, _⟩ | ⟨t, h, _⟩
  · exact Or.inl h
  · exact Or.inr (Or.inl h)
  · exact Or.inr (Or.inr (Or.inl h))
  · exact Or.inr (Or.inr (Or.inr ⟨t, h⟩))

end EnsureUpdate
